import Mathlib

/-!
Verification of the client-side audio capture / voice-effect rendering /
encoding pipeline of the podcast_homepage repository.

The embedding models the JavaScript source shallowly:
* audio samples are rationals (JS numbers are floats; the algebraic claims
  of the spec are stated over exact arithmetic),
* `JSNum` adds NaN where the code can observe a non-finite number,
* fallible operations return `Except`/`Option`,
* the browser media APIs (decodeAudioData outcome, MediaRecorder outcome,
  isTypeSupported, audio-element probe events) enter as explicit parameters,
  since they are environment inputs, not repository code.

Sources embedded: src/frontend/src/utils/audioUtils.ts (processAndCompress,
decodeBlobToAudioBuffer, audioBufferToWavBlob) and the VoiceRecorder
controller (startRecording / stopRecording / processAllVoices /
durationFromAudioElement).
-/

/-- JavaScript `Math.trunc` semantics used by `DataView.setInt16`'s ToInteger
conversion: truncation toward zero. -/
def jsTrunc (q : ℚ) : ℤ :=
  if q < 0 then ⌈q⌉ else ⌊q⌋

/-- JavaScript `Math.round`: round half toward positive infinity. -/
def jsRound (q : ℚ) : ℤ :=
  ⌊q + 1 / 2⌋

/-- A JavaScript number as observed by the duration logic: either NaN
(e.g. a non-finite `duration` property) or an ordinary (rational) value. -/
inductive JSNum where
  | nan : JSNum
  | val : ℚ → JSNum
deriving DecidableEq

/-- JavaScript `d || 0` on a number: NaN and 0 are falsy and give 0; any other
number is returned unchanged. On rationals this is the identity except NaN. -/
def orZero : JSNum → ℚ
  | JSNum.nan => 0
  | JSNum.val q => q

/-- audioUtils.ts, processAndCompress step 3 (also part_004 lines 25-27):
`Math.ceil((abuf.length / playbackRate) * (targetSampleRate / abuf.sampleRate))`,
the frame count of the OfflineAudioContext output buffer. -/
def outSamples (inputFrames : ℕ) (playbackRate targetSampleRate inputSampleRate : ℚ) : ℤ :=
  ⌈((inputFrames : ℚ) / playbackRate) * (targetSampleRate / inputSampleRate)⌉

/-- C1: the offline renderer allocates exactly
ceil(inputFrames / playbackRate * targetSampleRate / inputSampleRate) output
frames, and at 44100 input frames, rate 1.35, equal sample rates this is
ceil(44100 / 1.35) = 32667. -/
theorem outSamples_matches_spec_formula (n : ℕ) (r o i : ℚ)
    (hr : 0 < r) (ho : 0 < o) (hi : 0 < i) :
    outSamples n r o i = ⌈(n : ℚ) / r * o / i⌉ ∧
    outSamples 44100 (27 / 20) i i = 32667 := by
  constructor
  · unfold outSamples
    congr 1
    rw [mul_div_assoc]
  · unfold outSamples
    rw [div_self (ne_of_gt hi)]
    rw [mul_one]
    rw [Int.ceil_eq_iff]
    norm_num

theorem outSamples_matches_spec_formula_witness :
    outSamples 44100 (27 / 20) 22050 22050 = 32667 :=
  (outSamples_matches_spec_formula 44100 (27 / 20) 22050 22050
    (by norm_num) (by norm_num) (by norm_num)).2

/-! ## Channel adaptation (audioUtils.ts lines 74-95, part_004 lines 34-55) -/

/-- A channel-data read with the code's guard: `abuf.getChannelData(ch)[i] || 0`.
A missing entry reads as undefined and the guard coerces it (and a stored 0)
to 0, which on rationals is `List.getD _ _ 0`. -/
def sampleAt (input : List (List ℚ)) (ch i : ℕ) : ℚ :=
  (input.getD ch []).getD i 0

/-- audioUtils.ts lines 80-87 (= part_004 lines 41-48): the mono downmix loop,
`sum += abuf.getChannelData(ch)[i] || 0` over every input channel, then
`out[i] = sum / abuf.numberOfChannels`. -/
def downmixSample (input : List (List ℚ)) (i : ℕ) : ℚ :=
  ((List.range input.length).foldl (fun sum ch => sum + sampleAt input ch i) 0) /
    (input.length : ℚ)

/-- audioUtils.ts lines 74-95: the OfflineAudioContext source buffer. A mono
target gets the averaged downmix of all frames; otherwise output channel ch
copies input channel `Math.min(ch, abuf.numberOfChannels - 1)`. -/
def srcChannels (channels : ℕ) (input : List (List ℚ)) (frames : ℕ) : List (List ℚ) :=
  if channels = 1 then
    [(List.range frames).map (fun i => downmixSample input i)]
  else
    (List.range channels).map (fun ch => input.getD (min ch (input.length - 1)) [])

lemma foldl_add_range (f : ℕ → ℚ) (n : ℕ) :
    (List.range n).foldl (fun s ch => s + f ch) 0 = ∑ ch in Finset.range n, f ch := by
  induction n with
  | zero => simp
  | succ m ih => simp [List.range_succ, Finset.sum_range_succ, ih]

lemma getD_map_range (f : ℕ → α) (n i : ℕ) (d : α) (h : i < n) :
    ((List.range n).map f).getD i d = f i := by
  have hlen : i < ((List.range n).map f).length := by simpa using h
  rw [List.getD_eq_getElem _ _ hlen]
  simp

/-- C4: with a mono target the source sample at frame i is the arithmetic mean
of the input channels at i (for stereo exactly (left i + right i) / 2), and
with a target channel count exceeding the input channel count every extra
output channel is a copy of the highest-index input channel. -/
theorem channel_adaptation (input : List (List ℚ)) (i frames : ℕ)
    (hN : 0 < input.length) :
    (downmixSample input i =
      (∑ ch in Finset.range input.length, sampleAt input ch i) / (input.length : ℚ)) ∧
    (∀ left right : List ℚ, input = [left, right] →
      downmixSample input i = (left.getD i 0 + right.getD i 0) / 2) ∧
    (i < frames →
      ((srcChannels 1 input frames).getD 0 []).getD i 0 = downmixSample input i) ∧
    (∀ channels ch, input.length ≤ ch → ch < channels →
      (srcChannels channels input frames).getD ch [] =
        input.getD (input.length - 1) []) := by
  refine ⟨?_, ?_, ?_, ?_⟩
  · rw [downmixSample, foldl_add_range]
  · rintro left right rfl
    rw [downmixSample, foldl_add_range]
    simp [sampleAt, Finset.sum_range_succ]
  · intro hif
    rw [srcChannels, if_pos rfl]
    simp only [List.getD_cons_zero]
    exact getD_map_range _ frames i 0 hif
  · intro channels ch hle hlt
    have hch1 : channels ≠ 1 := by omega
    rw [srcChannels, if_neg hch1]
    rw [getD_map_range _ channels ch [] hlt]
    congr 1
    omega

theorem channel_adaptation_witness :
    downmixSample [[1, (3 : ℚ)], [2, 5]] 0 =
      (∑ ch in Finset.range 2, sampleAt [[1, (3 : ℚ)], [2, 5]] ch 0) / 2 ∧
    (srcChannels 3 [[1, (3 : ℚ)], [2, 5]] 2).getD 2 [] = [2, 5] := by
  have h := channel_adaptation [[1, (3 : ℚ)], [2, 5]] 0 2 (by norm_num)
  refine ⟨h.1, ?_⟩
  have h4 := h.2.2.2 3 2 (by norm_num) (by norm_num)
  simpa using h4

/-! ## Duration resolution (VoiceRecorder: mr.onstop, durationFromAudioElement) -/

/-- What the audio-element probe observes: the loadedmetadata event carrying
`a.duration`, the error event, or the bounded 5000 ms timeout firing. -/
inductive ProbeEvent where
  | metadata : JSNum → ProbeEvent
  | mediaError : ProbeEvent
  | timeout : ProbeEvent
deriving DecidableEq

/-- VoiceRecorder durationFromAudioElement: loadedmetadata resolves
`a.duration || 0` (the later `Number.isFinite` guard is redundant after that
coercion), the error handler resolves 0, and the timeout resolves 0. -/
def durationFromAudioElement : ProbeEvent → ℚ
  | ProbeEvent.metadata d => orZero d
  | ProbeEvent.mediaError => 0
  | ProbeEvent.timeout => 0

/-- VoiceRecorder mr.onstop lines 156-162:
`try { dur = (await decodeBlobToAudioBuffer _).duration || 0 }
 catch { dur = await durationFromAudioElement _ }`.
`decodeResult` is `some d` when decodeAudioData fulfills with duration d and
`none` when decoding throws. -/
def resolveRecordedDuration (decodeResult : Option JSNum) (probe : ProbeEvent) : ℚ :=
  match decodeResult with
  | some d => orZero d
  | none => durationFromAudioElement probe

/-- The duration policy exactly as the claim words it: the decoded duration is
used only when it is finite and positive; otherwise the probe result is used. -/
def resolveDurationClaim (decodeResult : Option JSNum) (probe : ProbeEvent) : ℚ :=
  match decodeResult with
  | some (JSNum.val q) => if 0 < q then q else durationFromAudioElement probe
  | some JSNum.nan => durationFromAudioElement probe
  | none => durationFromAudioElement probe

/-- C2 counterexample: decoding succeeds with duration 0 (non-positive) while
the probe would report 5 s. The code reports 0 without consulting the probe;
the claim requires the probe result 5. -/
theorem resolveDuration_counterexample :
    resolveRecordedDuration (some (JSNum.val 0)) (ProbeEvent.metadata (JSNum.val 5)) = 0 ∧
    resolveDurationClaim (some (JSNum.val 0)) (ProbeEvent.metadata (JSNum.val 5)) = 5 := by
  constructor
  · rfl
  · simp [resolveDurationClaim, durationFromAudioElement, orZero]

/-- C2 amended: a finite positive decoded duration is returned as-is; any other
successful decode reports `duration || 0` (0 for NaN or a zero duration)
without probing; the probe runs only when decoding throws; and a probe error
or timeout yields 0 rather than an error. -/
theorem resolveDuration_amended (d : JSNum) (p : ProbeEvent) :
    (∀ q : ℚ, 0 < q → resolveRecordedDuration (some (JSNum.val q)) p = q) ∧
    resolveRecordedDuration (some d) p = orZero d ∧
    resolveRecordedDuration none p = durationFromAudioElement p ∧
    durationFromAudioElement ProbeEvent.mediaError = 0 ∧
    durationFromAudioElement ProbeEvent.timeout = 0 :=
  ⟨fun _ _ => rfl, rfl, rfl, rfl, rfl⟩

theorem resolveDuration_amended_witness :
    resolveRecordedDuration (some (JSNum.val 3)) ProbeEvent.timeout = 3 :=
  (resolveDuration_amended (JSNum.val 3) ProbeEvent.timeout).1 3 (by norm_num)

/-! ## WAV encoding (audioBufferToWavBlob, audioUtils.ts lines 264-316,
part_004 lines 105-159) -/

/-- Little-endian bytes of a 16-bit write, `DataView.setUint16 _ v true`. -/
def u16le (v : ℕ) : List ℕ := [v % 256, v / 256 % 256]

/-- Little-endian bytes of a 32-bit write, `DataView.setUint32 _ v true`. -/
def u32le (v : ℕ) : List ℕ :=
  [v % 256, v / 256 % 256, v / 65536 % 256, v / 16777216 % 256]

/-- A `DataView.setInt16` write of a possibly negative integer:
two's-complement 16-bit value, little-endian. -/
def i16le (v : ℤ) : List ℕ := u16le (v % 65536).toNat

/-- The `writeString` helper: one byte per character code. -/
def asciiBytes (s : String) : List ℕ := s.data.map Char.toNat

/-- One PCM sample as written at lines 310-313: clamp with
`const s = Math.max(-1, Math.min(1, x))`, scale a negative s by 0x8000 and a
non-negative one by 0x7fff, then store via setInt16 (ToInteger truncation). -/
def encodeSample (x : ℚ) : List ℕ :=
  i16le (jsTrunc (if max (-1) (min 1 x) < 0 then max (-1) (min 1 x) * 32768
                  else max (-1) (min 1 x) * 32767))

/-- Lines 270-282: the interleave step. Exactly two channels are interleaved
pairwise over the left channel's length; any other channel count falls
through to channel 0 alone. -/
def interleaveCode (buffer : List (List ℚ)) : List ℚ :=
  if buffer.length = 2 then
    (List.range ((buffer.getD 0 []).length)).flatMap
      (fun i => [(buffer.getD 0 []).getD i 0, (buffer.getD 1 []).getD i 0])
  else
    buffer.getD 0 []

/-- Lines 295-307: the 44 header bytes. The DataView writes land contiguously
at offsets 0,4,8,12,16,20,22,24,28,32,34,36,40 with no gaps or overlaps, so
the write sequence is the concatenation of the little-endian encodings. -/
def wavHeader (numChannels sampleRate dataLen : ℕ) : List ℕ :=
  asciiBytes "RIFF" ++ u32le (36 + dataLen) ++ asciiBytes "WAVE" ++
  asciiBytes "fmt " ++ u32le 16 ++ u16le 1 ++ u16le numChannels ++
  u32le sampleRate ++ u32le (sampleRate * (numChannels * 2)) ++
  u16le (numChannels * 2) ++ u16le 16 ++
  asciiBytes "data" ++ u32le dataLen

/-- audioBufferToWavBlob: the header then the interleaved samples encoded as
16-bit little-endian PCM at offsets 44, 46, 48, ... -/
def audioBufferToWavBlob (sampleRate : ℕ) (buffer : List (List ℚ)) : List ℕ :=
  wavHeader buffer.length sampleRate ((interleaveCode buffer).length * 2) ++
    ((interleaveCode buffer).map encodeSample).flatten

lemma flatten_map_flatMap (is : List α) (f : α → List β) (g : β → List γ) :
    ((is.flatMap f).map g).flatten = (is.map fun a => ((f a).map g).flatten).flatten := by
  induction is with
  | nil => rfl
  | cons a t ih => simp [List.flatMap_cons, ih]

lemma length_flatMap_pair (n : ℕ) (f g : ℕ → α) :
    ((List.range n).flatMap (fun i => [f i, g i])).length = 2 * n := by
  induction n with
  | zero => rfl
  | succ m ih =>
    rw [List.range_succ, List.flatMap_append, List.length_append, ih]
    simp
    omega

lemma jsTrunc_intCast (z : ℤ) : jsTrunc (z : ℚ) = z := by
  unfold jsTrunc
  split
  · exact Int.ceil_intCast z
  · exact Int.floor_intCast z

lemma map_range_getD_self (l : List α) (d : α) :
    (List.range l.length).map (fun i => l.getD i d) = l := by
  induction l with
  | nil => rfl
  | cons a t ih =>
    rw [List.length_cons, List.range_succ_eq_map, List.map_cons, List.map_map]
    have hcomp : ((fun i => (a :: t).getD i d) ∘ Nat.succ) = (fun i => t.getD i d) := by
      funext i
      simp
    rw [List.getD_cons_zero, hcomp, ih]

/-- C3: for a rendered buffer with one or two equal-length channels, the WAV
blob is the 44-byte RIFF/WAVE header (format tag 1, the buffer's channel
count and sample rate, block align = channels*2, byte rate =
sampleRate*blockAlign, bit depth 16) followed by the 16-bit little-endian
samples interleaved per frame; a sample at or below -1 encodes as the
two's-complement bytes of -32768 and a sample at or above 1 as 32767. -/
theorem wav_layout (sr : ℕ) (buffer : List (List ℚ)) (n : ℕ)
    (hch : buffer.length = 1 ∨ buffer.length = 2)
    (hlen : ∀ c ∈ buffer, c.length = n) :
    (audioBufferToWavBlob sr buffer =
      wavHeader buffer.length sr (buffer.length * n * 2) ++
        ((List.range n).map (fun i =>
          (buffer.map (fun c => encodeSample (c.getD i 0))).flatten)).flatten) ∧
    (wavHeader buffer.length sr (buffer.length * n * 2)).length = 44 ∧
    (∀ x : ℚ, x ≤ -1 → encodeSample x = u16le 32768) ∧
    (∀ x : ℚ, 1 ≤ x → encodeSample x = u16le 32767) := by
  refine ⟨?_, ?_, ?_, ?_⟩
  · rcases hch with h1 | h2
    · obtain ⟨c, rfl⟩ := List.length_eq_one.mp h1
      have hc : c.length = n := hlen c (List.mem_singleton_self c)
      subst hc
      unfold audioBufferToWavBlob interleaveCode
      have hLen1 : ([c] : List (List ℚ)).length = 1 := rfl
      rw [hLen1]
      rw [if_neg (by norm_num : ¬(1 : ℕ) = 2)]
      simp only [List.getD_cons_zero]
      congr 1
      · congr 1
        ring
      · have hmc : (List.range c.length).map
            (fun i => (([c] : List (List ℚ)).map
              (fun ch => encodeSample (ch.getD i 0))).flatten) =
            (List.range c.length).map (fun i => encodeSample (c.getD i 0)) :=
          List.map_congr_left (fun i _ => by simp)
        rw [hmc]
        have h3 := congrArg (List.map encodeSample) (map_range_getD_self c 0)
        rw [List.map_map] at h3
        exact congrArg List.flatten h3.symm
    · obtain ⟨l, r, rfl⟩ := List.length_eq_two.mp h2
      have hl : l.length = n := hlen l (by simp)
      subst hl
      unfold audioBufferToWavBlob interleaveCode
      have hLen2 : ([l, r] : List (List ℚ)).length = 2 := rfl
      rw [hLen2]
      rw [if_pos (rfl : (2 : ℕ) = 2)]
      simp only [List.getD_cons_zero, List.getD_cons_succ]
      congr 1
      · congr 1
        rw [length_flatMap_pair]
      · rw [flatten_map_flatMap]
        rfl
  · rfl
  · intro x hx
    unfold encodeSample
    rw [min_eq_right (le_trans hx (by norm_num)), max_eq_left hx]
    rw [if_pos (by norm_num)]
    rw [show ((-1 : ℚ) * 32768) = ((-32768 : ℤ) : ℚ) by norm_num]
    rw [jsTrunc_intCast]
    unfold i16le
    decide
  · intro x hx
    unfold encodeSample
    rw [min_eq_left hx, max_eq_right (by norm_num)]
    rw [if_neg (by norm_num)]
    rw [show ((1 : ℚ) * 32767) = ((32767 : ℤ) : ℚ) by norm_num]
    rw [jsTrunc_intCast]
    unfold i16le
    decide

theorem wav_layout_witness :
    audioBufferToWavBlob 8000 [[(1 : ℚ) / 2], [(3 : ℚ)]] =
      wavHeader 2 8000 (2 * 1 * 2) ++
        ((List.range 1).map (fun i =>
          ([[(1 : ℚ) / 2], [(3 : ℚ)]].map
            (fun c => encodeSample (c.getD i 0))).flatten)).flatten :=
  (wav_layout 8000 [[(1 : ℚ) / 2], [(3 : ℚ)]] 1 (Or.inr rfl)
    (by
      intro c hc
      simp only [List.mem_cons, List.not_mem_nil, or_false] at hc
      rcases hc with rfl | rfl <;> rfl)).1



/-! ## Per-voice batch loop (VoiceRecorder processAllVoices) -/

/-- processAllVoices: for i in 0..total-1 the loop body runs
try { store the processAndCompress artifact } catch { log; the artifact stays
absent } finally { progress := Math.round(((i+1)/total)*100) }. `outcomes`
gives each voice's processAndCompress outcome, an environment input: some
artifact on fulfilment, none on rejection. The state is the artifact store
paired with the last reported progress. -/
def processAllVoices (outcomes : List (Option α)) : List (Option α) × ℤ :=
  (List.range outcomes.length).foldl
    (fun st i => (st.1 ++ [outcomes.getD i none],
      jsRound ((((i : ℚ) + 1) / (outcomes.length : ℚ)) * 100)))
    ([], 0)

lemma foldl_snoc_fst (n : ℕ) (f : ℕ → α) (g : ℕ → ℤ) (init : List α) (z : ℤ) :
    ((List.range n).foldl (fun (st : List α × ℤ) i => (st.1 ++ [f i], g i)) (init, z)).1
      = init ++ (List.range n).map f := by
  induction n generalizing init z with
  | zero => simp
  | succ m ih =>
    have step := ih init z
    rcases hst : (List.range m).foldl
        (fun (st : List α × ℤ) i => (st.1 ++ [f i], g i)) (init, z) with ⟨a, b⟩
    rw [hst] at step
    simp only [List.range_succ, List.foldl_append, hst, List.foldl_cons,
      List.foldl_nil, List.map_append]
    simp at step
    simp [step, List.append_assoc]

lemma foldl_snoc_snd (n : ℕ) (hn : 0 < n) (f : ℕ → α) (g : ℕ → ℤ)
    (init : List α) (z : ℤ) :
    ((List.range n).foldl (fun (st : List α × ℤ) i => (st.1 ++ [f i], g i)) (init, z)).2
      = g (n - 1) := by
  obtain ⟨m, rfl⟩ : ∃ m, n = m + 1 := ⟨n - 1, by omega⟩
  rw [List.range_succ, List.foldl_append, List.foldl_cons, List.foldl_nil]
  simp

/-- C5: a per-voice failure is isolated. Each voice's stored artifact equals
exactly its own processAndCompress outcome (a failed voice stays absent, every
other voice keeps its artifact, and the original set before the loop is
untouched by it), the loop visits all voices, and the final reported progress
is round(total/total*100) = 100. -/
theorem batch_isolation (outcomes : List (Option α)) (h : outcomes ≠ []) :
    (processAllVoices outcomes).1 = outcomes ∧
    (processAllVoices outcomes).2 = 100 ∧
    ∀ j, (processAllVoices outcomes).1.getD j none = outcomes.getD j none := by
  have hfst : (processAllVoices outcomes).1 = outcomes := by
    unfold processAllVoices
    rw [foldl_snoc_fst]
    rw [List.nil_append]
    exact map_range_getD_self outcomes none
  have hlen : 0 < outcomes.length := List.length_pos.mpr h
  refine ⟨hfst, ?_, fun j => by rw [hfst]⟩
  unfold processAllVoices
  rw [foldl_snoc_snd _ hlen]
  have hcast : ((outcomes.length - 1 : ℕ) : ℚ) + 1 = (outcomes.length : ℚ) := by
    have : (1 : ℕ) ≤ outcomes.length := hlen
    push_cast [this]
    ring
  rw [hcast, div_self (by positivity), one_mul]
  unfold jsRound
  rw [Int.floor_eq_iff]
  constructor <;> norm_num

theorem batch_isolation_witness :
    (processAllVoices [some 1, none, some (2 : ℕ)]).1 = [some 1, none, some 2] ∧
    (processAllVoices [some 1, none, some (2 : ℕ)]).2 = 100 := by
  have h := batch_isolation [some 1, none, some (2 : ℕ)] (by simp)
  exact ⟨h.1, h.2.1⟩

/-! ## Compressed-container selection and fallback
(audioUtils.ts lines 164-248) -/

/-- Lines 165-170: the ordered preference list of compressed containers. -/
def candidateTypes : List String :=
  ["audio/webm;codecs=opus", "audio/ogg;codecs=opus", "audio/webm", "audio/ogg"]

/-- Lines 171-184: the first candidate for which
MediaRecorder.isTypeSupported holds, scanning the list in order. -/
def chooseMimeType (isTypeSupported : String → Bool) : Option String :=
  candidateTypes.find? isTypeSupported

/-- The encode tail of processAndCompress (lines 186-248). With no supported
compressed container the rendered buffer is returned as a WAV blob tagged
audio/wav (lines 187-201). Otherwise the MediaRecorder path runs: its promise
resolves with the chunk blob on stop and rejects on a recorder error (lines
215-221), and that rejection propagates out of processAndCompress; there is
no WAV fallback and no timeout on this path. `recorderOutcome` is the
environment's MediaRecorder result. -/
def encodeTail (isTypeSupported : String → Bool) (recorderOutcome : Except Unit α)
    (wavBlob : α) (duration : ℚ) : Except Unit (α × String × ℚ) :=
  match chooseMimeType isTypeSupported with
  | none => Except.ok (wavBlob, "audio/wav", duration)
  | some m =>
    match recorderOutcome with
    | Except.ok b => Except.ok (b, m, duration)
    | Except.error e => Except.error e

/-- The encoder as the claim words it: a compressed-path error also falls
back to the portable WAV artifact. -/
def encodeTailClaim (isTypeSupported : String → Bool) (recorderOutcome : Except Unit α)
    (wavBlob : α) (duration : ℚ) : Except Unit (α × String × ℚ) :=
  match chooseMimeType isTypeSupported with
  | none => Except.ok (wavBlob, "audio/wav", duration)
  | some m =>
    match recorderOutcome with
    | Except.ok b => Except.ok (b, m, duration)
    | Except.error _ => Except.ok (wavBlob, "audio/wav", duration)

/-- C6 counterexample: every compressed container is supported and the
recorder errors. The code rejects (the voice fails); the claim requires a
fall back to the portable WAV artifact. -/
theorem encode_fallback_counterexample :
    encodeTail (fun _ => true) (Except.error ()) (0 : ℕ) 1 = Except.error () ∧
    encodeTailClaim (fun _ => true) (Except.error ()) (0 : ℕ) 1 =
      Except.ok (0, "audio/wav", 1) := by
  constructor <;> rfl

/-- C6 amended: the mime type is the first supported entry of the ordered
preference list and is reported exactly in the result; when none is supported
the WAV fallback is returned with mime type audio/wav; but a compressed-path
recorder error propagates as a failure of processAndCompress instead of
falling back to WAV, and no timeout exists on the compressed path. -/
theorem encode_select_amended (p : String → Bool) (oc : Except Unit α)
    (w : α) (d : ℚ) :
    (chooseMimeType p =
      (if p "audio/webm;codecs=opus" then some "audio/webm;codecs=opus"
       else if p "audio/ogg;codecs=opus" then some "audio/ogg;codecs=opus"
       else if p "audio/webm" then some "audio/webm"
       else if p "audio/ogg" then some "audio/ogg"
       else none)) ∧
    (chooseMimeType p = none →
      encodeTail p oc w d = Except.ok (w, "audio/wav", d)) ∧
    (∀ m, chooseMimeType p = some m →
      (∀ b, oc = Except.ok b → encodeTail p oc w d = Except.ok (b, m, d)) ∧
      (∀ e, oc = Except.error e → encodeTail p oc w d = Except.error e)) := by
  refine ⟨?_, ?_, ?_⟩
  · cases h1 : p "audio/webm;codecs=opus" <;>
      cases h2 : p "audio/ogg;codecs=opus" <;>
      cases h3 : p "audio/webm" <;>
      cases h4 : p "audio/ogg" <;>
      simp [chooseMimeType, candidateTypes, List.find?_cons, h1, h2, h3, h4]
  · intro h
    unfold encodeTail
    rw [h]
  · intro m hm
    constructor
    · intro b hb
      unfold encodeTail
      rw [hm, hb]
    · intro e he
      unfold encodeTail
      rw [hm, he]

theorem encode_select_amended_witness :
    encodeTail (fun _ => false) (Except.ok 7) (5 : ℕ) 2 =
      Except.ok (5, "audio/wav", 2) :=
  (encode_select_amended (fun _ => false) (Except.ok 7) 5 2).2.1 rfl

/-! ## Filter chain setup (audioUtils.ts lines 101-118) -/

/-- The filter kinds the audioUtils.ts chain handles. -/
inductive FilterKind where
  | highshelf
  | lowpass
  | highpass
deriving DecidableEq

/-- One entry of the per-voice filters array:
`{ type, value?: number, gain?: number }`. -/
structure FilterSpec where
  kind : FilterKind
  value : Option ℚ
  gain : Option ℚ
deriving DecidableEq

/-- The observable configuration of a created BiquadFilterNode. -/
structure BiquadConfig where
  kind : FilterKind
  frequency : ℚ
  gain : ℚ
deriving DecidableEq

/-- JavaScript `v || d` where v may be undefined: undefined and 0 are falsy
and give d; any other number passes through. -/
def jsOrDefault (v : Option ℚ) (d : ℚ) : ℚ :=
  match v with
  | none => d
  | some q => if q = 0 then d else q

/-- Lines 103-118: one BiquadFilterNode per filter spec. The frequency is
`f.value || 3000` for highshelf and lowpass and `f.value || 300` for
highpass; gain is assigned only for highshelf when present (the node default
0 is kept otherwise). No validation happens and nothing can fail. -/
def setupFilter (f : FilterSpec) : BiquadConfig :=
  match f.kind with
  | FilterKind.highshelf =>
      { kind := FilterKind.highshelf, frequency := jsOrDefault f.value 3000,
        gain := match f.gain with | some g => g | none => 0 }
  | FilterKind.lowpass =>
      { kind := FilterKind.lowpass, frequency := jsOrDefault f.value 3000,
        gain := 0 }
  | FilterKind.highpass =>
      { kind := FilterKind.highpass, frequency := jsOrDefault f.value 300,
        gain := 0 }

/-- The loop at lines 103-118: one node per spec, in order. -/
def setupFilterChain (fs : List FilterSpec) : List BiquadConfig :=
  fs.map setupFilter

/-- The render-stage failure the claim postulates. -/
inductive RenderFailure where
  | invalidFilter
deriving DecidableEq

/-- The fail-fast validation the claim describes: any filter configured with
a non-positive frequency is rejected with InvalidFilterError. -/
def setupFilterChainClaim (fs : List FilterSpec) :
    Except RenderFailure (List BiquadConfig) :=
  fs.mapM (fun f =>
    match f.value with
    | some q =>
        if q ≤ 0 then Except.error RenderFailure.invalidFilter
        else Except.ok (setupFilter f)
    | none => Except.ok (setupFilter f))

/-- C7 counterexample: a lowpass filter configured with frequency -100 Hz.
The code builds the node with frequency -100 and raises nothing; the claim
requires the render to fail with InvalidFilterError. -/
theorem filter_nonpositive_counterexample :
    setupFilterChain [⟨FilterKind.lowpass, some (-100), none⟩] =
      [⟨FilterKind.lowpass, -100, 0⟩] ∧
    setupFilterChainClaim [⟨FilterKind.lowpass, some (-100), none⟩] =
      Except.error RenderFailure.invalidFilter := by
  constructor
  · decide
  · rfl

/-- C7 amended: filter setup never fails. Every spec yields exactly one
node; a zero or missing frequency silently becomes the per-kind default
(3000 Hz, or 300 Hz for highpass) and any nonzero value, negative included,
is passed through to the platform node unchanged. -/
theorem filter_chain_total (fs : List FilterSpec) (f : FilterSpec) (q : ℚ)
    (hq : q ≠ 0) :
    (setupFilterChain fs).length = fs.length ∧
    (setupFilter ⟨f.kind, some q, f.gain⟩).frequency = q ∧
    (setupFilter ⟨FilterKind.lowpass, some 0, none⟩).frequency = 3000 ∧
    (setupFilter ⟨FilterKind.highpass, none, none⟩).frequency = 300 := by
  refine ⟨by simp [setupFilterChain], ?_, by rfl, by rfl⟩
  cases hk : f.kind <;> simp [setupFilter, jsOrDefault, hq]

theorem filter_chain_total_witness :
    (setupFilter ⟨FilterKind.lowpass, some (-100), none⟩).frequency = -100 :=
  (filter_chain_total [] ⟨FilterKind.lowpass, some (-100), none⟩ (-100)
    (by norm_num)).2.1

/-! ## Capture session state machine (VoiceRecorder startRecording /
stopRecording and the safety timeout) -/

/-- The observable phases of a capture session: Idle, Recording (MediaRecorder
state "recording"), Stopping (stop() called, awaiting onstop), Processing
(the onstop handler running decode + batch). -/
inductive RecPhase where
  | idle
  | recording
  | stopping
  | processing
deriving DecidableEq

/-- The events driving the controller: mr.start() succeeding, the user's stop
action, the 5-minute safety timeout firing, MediaRecorder onstop delivering
the data, and the onstop handler finishing. -/
inductive RecEvent where
  | startRec
  | userStop
  | safetyTimeout
  | dataStopped
  | processingDone
deriving DecidableEq

/-- The controller transitions. The safety-timeout handler (lines 188-195)
guards on `mediaRecorderRef.current.state === "recording"` and then calls
stopRecording(), the same path as a user stop; in any other phase it does
nothing. mr.onstop starts Processing, whose handler finishes back at Idle. -/
def recStep : RecPhase → RecEvent → RecPhase
  | RecPhase.idle, RecEvent.startRec => RecPhase.recording
  | RecPhase.recording, RecEvent.userStop => RecPhase.stopping
  | RecPhase.recording, RecEvent.safetyTimeout => RecPhase.stopping
  | RecPhase.stopping, RecEvent.dataStopped => RecPhase.processing
  | RecPhase.processing, RecEvent.processingDone => RecPhase.idle
  | s, _ => s

/-- The fixed safety bound passed to setTimeout: `5 * 60 * 1000` ms. -/
def safetyTimeoutMs : ℕ := 5 * 60 * 1000

/-- A sequence of controller events applied in order. -/
def runEvents (s : RecPhase) (es : List RecEvent) : RecPhase :=
  es.foldl recStep s

/-- C8: if the session is still Recording when the safety timeout fires, the
controller moves to Stopping on the timeout event alone (no user action is an
input of that transition); in any other phase the timeout is a no-op, so no
session records past the fixed 300000 ms bound; and the timeout-stopped
session still runs Processing to completion, returning to Idle. -/
theorem safety_timeout_stop (s : RecPhase) (hs : s ≠ RecPhase.recording) :
    recStep RecPhase.recording RecEvent.safetyTimeout = RecPhase.stopping ∧
    recStep s RecEvent.safetyTimeout = s ∧
    safetyTimeoutMs = 300000 ∧
    runEvents RecPhase.recording
      [RecEvent.safetyTimeout, RecEvent.dataStopped, RecEvent.processingDone]
      = RecPhase.idle := by
  refine ⟨rfl, ?_, rfl, rfl⟩
  cases s
  · rfl
  · exact absurd rfl hs
  · rfl
  · rfl

theorem safety_timeout_stop_witness :
    recStep RecPhase.idle RecEvent.safetyTimeout = RecPhase.idle :=
  (safety_timeout_stop RecPhase.idle (by decide)).2.1

/-! ## Decoder context lifecycle (decodeBlobToAudioBuffer, audioUtils.ts
lines 252-261 vs the VoiceRecorder revision) -/

/-- audioUtils.ts decodeBlobToAudioBuffer: `const ctx = new Ctx(); const
decoded = await ctx.decodeAudioData(buf); try { ctx.close() } catch {};
return decoded`. The second component counts open decoding contexts;
`decodeOutcome` is `some buffer` when decodeAudioData fulfills and `none`
when it rejects, in which case the close call is never reached. -/
def decodeBlobToAudioBuffer (decodeOutcome : Option α) (openContexts : ℕ) :
    Except Unit α × ℕ :=
  match decodeOutcome with
  | some buf => (Except.ok buf, openContexts + 1 - 1)
  | none => (Except.error (), openContexts + 1)

/-- The VoiceRecorder revision of decodeBlobToAudioBuffer: the same body but
with `ctx.close()` in a finally block, releasing the context on both exits. -/
def decodeBlobToAudioBufferFinally (decodeOutcome : Option α) (openContexts : ℕ) :
    Except Unit α × ℕ :=
  match decodeOutcome with
  | some buf => (Except.ok buf, openContexts + 1 - 1)
  | none => (Except.error (), openContexts + 1 - 1)

/-- C10: evaluated at the failing input (decodeAudioData rejects, no context
previously open), the audioUtils.ts decoder returns with its decoding context
still open, violating release-on-every-exit-path; the success path does
release, and the VoiceRecorder revision's try/finally releases on both. -/
theorem decode_context_leak :
    (decodeBlobToAudioBuffer (α := Unit) none 0).2 = 1 ∧
    (decodeBlobToAudioBuffer (α := Unit) (some ()) 0).2 = 0 ∧
    (decodeBlobToAudioBufferFinally (α := Unit) none 0).2 = 0 :=
  ⟨rfl, rfl, rfl⟩

/-! ## Offline render and the identity recipe -/

/-- Modelled from the spec: the OfflineAudioContext rendering engine that
realizes the playback-rate change and resampling is platform code, not part
of this repository; spec section 4.3 step 3 describes it as a variable-rate
read of the source against the fixed-rate output clock. Output frame j reads
the source at sample position j * playbackRate * inputSampleRate /
targetSampleRate (floor read in this model). -/
def renderFrame (src : List ℚ) (playbackRate inputSr targetSr : ℚ) (j : ℕ) : ℚ :=
  src.getD (⌊(j : ℚ) * playbackRate * (inputSr / targetSr)⌋).toNat 0

/-- The offline render pipeline of processAndCompress for the identity-claim
configuration: source-buffer preparation (srcChannels, from the code), the
spec-modelled variable-rate read for outSamples frames (the code's formula),
then the configured filter chain; `biquad` stands for the platform's
BiquadFilterNode transfer function, which an empty chain never invokes. -/
def renderVoice (biquad : BiquadConfig → List ℚ → List ℚ)
    (input : List (List ℚ)) (playbackRate : ℚ) (filters : List FilterSpec)
    (targetSr inputSr : ℚ) (channels : ℕ) : List (List ℚ) :=
  (srcChannels channels input ((input.getD 0 []).length)).map (fun src =>
    (setupFilterChain filters).foldl (fun sig f => biquad f sig)
      ((List.range (outSamples ((input.getD 0 []).length) playbackRate
          targetSr inputSr).toNat).map
        (renderFrame src playbackRate inputSr targetSr)))

/-- C9: with playbackRate 1, an empty filter list, no feedback stage, target
sample rate equal to the input rate, and target channel count equal to the
input channel count, the render is the identity: every output channel equals
the corresponding input channel sample-for-sample (so in particular the
output frame count equals the input frame count), for every platform filter
implementation. -/
theorem render_identity (biquad : BiquadConfig → List ℚ → List ℚ)
    (input : List (List ℚ)) (n : ℕ) (sr : ℚ) (hsr : 0 < sr)
    (hN : 0 < input.length) (hlen : ∀ c ∈ input, c.length = n) :
    renderVoice biquad input 1 [] sr sr input.length = input := by
  obtain ⟨a, t, rfl⟩ : ∃ a t, input = a :: t := by
    cases input with
    | nil => exact absurd hN (by simp)
    | cons a t => exact ⟨a, t, rfl⟩
  have ha : a.length = n := hlen a (by simp)
  have hsrne : sr ≠ 0 := ne_of_gt hsr
  unfold renderVoice
  have hget0 : ((a :: t) : List (List ℚ)).getD 0 [] = a := rfl
  rw [hget0, ha]
  have hout : (outSamples n 1 sr sr).toNat = n := by
    unfold outSamples
    rw [div_one, div_self hsrne, mul_one, Int.ceil_natCast, Int.toNat_natCast]
  rw [hout]
  have hframe : ∀ src : List ℚ, (List.range n).map (renderFrame src 1 sr sr) =
      (List.range n).map (fun j => src.getD j 0) := by
    intro src
    apply List.map_congr_left
    intro j _
    unfold renderFrame
    rw [mul_one, div_self hsrne, mul_one, Int.floor_natCast, Int.toNat_natCast]
  have hsrc : srcChannels (a :: t).length (a :: t) n = a :: t := by
    cases t with
    | nil =>
      unfold srcChannels
      have hL1 : ([a] : List (List ℚ)).length = 1 := rfl
      rw [hL1, if_pos (rfl : (1 : ℕ) = 1)]
      have hdm : (List.range n).map (fun i => downmixSample [a] i) = a := by
        have h1 : ∀ i ∈ List.range n, downmixSample [a] i = a.getD i 0 := by
          intro i _
          unfold downmixSample
          rw [hL1, show List.range 1 = [0] from rfl]
          simp [sampleAt]
        rw [List.map_congr_left h1, ← ha, map_range_getD_self]
      rw [hdm]
    | cons b u =>
      unfold srcChannels
      rw [if_neg (by simp)]
      have hmin : ∀ ch ∈ List.range ((a :: b :: u) : List (List ℚ)).length,
          ((a :: b :: u) : List (List ℚ)).getD
              (min ch ((a :: b :: u).length - 1)) [] =
            ((a :: b :: u) : List (List ℚ)).getD ch [] := by
        intro ch hch
        have hlt := List.mem_range.mp hch
        congr 1
        simp only [List.length_cons] at hlt ⊢
        omega
      rw [List.map_congr_left hmin, map_range_getD_self]
  rw [hsrc]
  have hid : ∀ src ∈ ((a :: t) : List (List ℚ)),
      (setupFilterChain []).foldl (fun sig f => biquad f sig)
        ((List.range n).map (renderFrame src 1 sr sr)) = src := by
    intro src hm
    have hsl : src.length = n := hlen src hm
    calc (setupFilterChain []).foldl (fun sig f => biquad f sig)
          ((List.range n).map (renderFrame src 1 sr sr))
        = (List.range n).map (renderFrame src 1 sr sr) := rfl
      _ = (List.range n).map (fun j => src.getD j 0) := hframe src
      _ = src := by rw [← hsl, map_range_getD_self]
  rw [List.map_congr_left hid]
  simp

theorem render_identity_witness :
    renderVoice (fun _ xs => xs) [[1, (2 : ℚ)], [3, 4]] 1 [] 22050 22050 2 =
      [[1, 2], [3, 4]] := by
  have h := render_identity (fun _ xs => xs) [[1, (2 : ℚ)], [3, 4]] 2 22050
    (by norm_num) (by simp)
    (by
      intro c hc
      simp only [List.mem_cons, List.not_mem_nil, or_false] at hc
      rcases hc with rfl | rfl <;> rfl)
  exact h
